import Mathlib

/-!
Verification of the CBD_LEZ_MDE survey data-cleaning pipeline.

The repository is a set of Python scripts that clean a survey spreadsheet:
they drop configured columns, rename headers, coerce column types, normalize
free text, extract multi-label categories by substring matching against
hand-curated Spanish vocabularies, and build row-normalized cross-tabulations.

This file is a shallow embedding of the relevant functions.  Text is modelled
as `List Char`; tables as association lists from column name to a list of
cells; missing values (`NaN`) as an explicit `Cell.na` constructor; fallible
pandas operations (`df.drop` without `errors="ignore"`, `astype(float)`) as
`Except`-valued functions.  Python `str.lower()` and the `unicodedata`
NFKD/combining-mark machinery are modelled on the alphabet actually used by
the repository's data and vocabularies: ASCII plus the Spanish accented
letters (á é í ó ú ñ ü and their upper-case forms).
-/

namespace CBD

/-! ## Basic character and list-of-character utilities -/

/-- The whitespace characters recognized by Python's `str.strip` /
regex `\s` (restricted to ASCII, which is all the survey data uses). -/
def pySpace (c : Char) : Bool :=
  c = ' ' || c = '\t' || c = '\n' || c = '\r' || c = Char.ofNat 11 || c = Char.ofNat 12

/-- Lookup in a finite character table. -/
def tblLookup {α : Type} (t : List (Char × α)) (c : Char) : Option α :=
  match t with
  | [] => none
  | (k, v) :: rest => if c = k then some v else tblLookup rest c

/-- Lower-casing table: ASCII `A`–`Z` plus the accented upper-case letters
appearing in the survey vocabulary.  Models Python's `str.lower()` on the
repository's alphabet. -/
def lowerTable : List (Char × Char) :=
  [('A', 'a'), ('B', 'b'), ('C', 'c'), ('D', 'd'), ('E', 'e'), ('F', 'f'),
   ('G', 'g'), ('H', 'h'), ('I', 'i'), ('J', 'j'), ('K', 'k'), ('L', 'l'),
   ('M', 'm'), ('N', 'n'), ('O', 'o'), ('P', 'p'), ('Q', 'q'), ('R', 'r'),
   ('S', 's'), ('T', 't'), ('U', 'u'), ('V', 'v'), ('W', 'w'), ('X', 'x'),
   ('Y', 'y'), ('Z', 'z'),
   ('Á', 'á'), ('É', 'é'), ('Í', 'í'), ('Ó', 'ó'), ('Ú', 'ú'), ('Ñ', 'ñ'),
   ('Ü', 'ü')]

/-- Python `str.lower()` on one character (modelled alphabet). -/
def pyLowerChar (c : Char) : Char := (tblLookup lowerTable c).getD c

/-- Python `str.lower()` on a string. -/
def pyLower (l : List Char) : List Char := l.map pyLowerChar

/-- `startsWithL n h` : `n` occurs at the very beginning of `h`. -/
def startsWithL : List Char → List Char → Bool
  | [], _ => true
  | _ :: _, [] => false
  | a :: as, b :: bs => a = b && startsWithL as bs

/-- `containsSeq n h` : `n` occurs contiguously somewhere inside `h`.
Models Python's substring test `n in h`. -/
def containsSeq (n : List Char) : List Char → Bool
  | [] => n.isEmpty
  | c :: rest => startsWithL n (c :: rest) || containsSeq n rest

/-! ## Establishment-type derivation

From `unified.py`, `categorize_establishment_type` (also repeated verbatim in
every per-plot helper of `final_cleaning_survey.py`):

    est_types = ['Proveedor', 'Venta al detalle', 'Fabricante', 'Ventas por internet']
    df[column].apply(lambda x: next((word for word in est_types
                                     if word.lower() in str(x).lower()), None))
-/

/-- The fixed, ordered category-phrase list of
`categorize_establishment_type`. -/
def est_types : List (List Char) :=
  ["Proveedor".data, "Venta al detalle".data, "Fabricante".data,
   "Ventas por internet".data]

/-- `word.lower() in str(x).lower()` — the per-phrase match test. -/
def estMatch (x w : List Char) : Bool := containsSeq (pyLower w) (pyLower x)

/-- `categorize_establishment_type` applied to one cell: the first phrase of
`est_types` whose lower-cased form is a substring of the lower-cased text,
`none` when no phrase matches. -/
def categorize_establishment_type (x : List Char) : Option (List Char) :=
  est_types.find? (estMatch x)

/-! ## Multi-label translation (`unified.py`, `translate_multi`)

    separators = [', ', '; ', ',', ';']
    for sep in separators:
        if sep in str(text):
            items = [item.strip() for item in str(text).split(sep)]
            translated_items = []
            for item in items:
                if item in mapping_dict:
                    translated_items.append(mapping_dict[item])
                else:
                    translated_items.append(item)  # Keep original if not found
            return sep.join(translated_items)
    text_str = str(text).strip()
    return mapping_dict.get(text_str, text_str)
-/

/-- Python `str.strip()`: remove leading and trailing whitespace. -/
def trimL (l : List Char) : List Char :=
  ((l.dropWhile pySpace).reverse.dropWhile pySpace).reverse

/-- Worker for `splitOnL`, structurally recursive on a fuel bound so that it
reduces inside the kernel; the fuel always dominates the list length, so the
`0` case is never reached from `splitOnL`. -/
def splitOnLGo (sep : List Char) : ℕ → List Char → List (List Char)
  | _, [] => [[]]
  | 0, l => [l]
  | fuel + 1, c :: rest =>
    if sep ≠ [] && startsWithL sep (c :: rest) then
      [] :: splitOnLGo sep fuel ((c :: rest).drop sep.length)
    else
      match splitOnLGo sep fuel rest with
      | t :: ts => (c :: t) :: ts
      | [] => [[c]]

/-- `str.split(sep)` for a non-empty separator: left-to-right,
non-overlapping occurrences of `sep` cut the string. -/
def splitOnL (sep l : List Char) : List (List Char) :=
  splitOnLGo sep l.length l

/-- String-keyed association-list lookup (a Python `dict` of strings). -/
def dictLookup (m : List (List Char × List Char)) (t : List Char) :
    Option (List Char) :=
  match m with
  | [] => none
  | (k, v) :: rest => if t = k then some v else dictLookup rest t

/-- `mapping_dict[item] if item in mapping_dict else item`. -/
def translateTok (m : List (List Char × List Char)) (t : List Char) : List Char :=
  (dictLookup m t).getD t

/-- The fixed separator-candidate list of `translate_multi`, in source order. -/
def SEPARATORS : List (List Char) :=
  [[',', ' '], [';', ' '], [','], [';']]

/-- The first candidate separator that occurs in the text (the `for sep in
separators: if sep in str(text):` scan). -/
def firstSep (text : List Char) : Option (List Char) :=
  SEPARATORS.find? (fun sep => containsSeq sep text)

/-- The stripped token list `translate_multi` works on: the text split on the
chosen separator, each item stripped; a single stripped token when no
separator occurs. -/
def tmTokens (text : List Char) : List (List Char) :=
  match firstSep text with
  | some sep => (splitOnL sep text).map trimL
  | none => [trimL text]

/-- The translated item list: each token replaced by its dictionary entry if
present, kept verbatim otherwise. -/
def tmLabels (m : List (List Char × List Char)) (text : List Char) :
    List (List Char) :=
  (tmTokens text).map (translateTok m)

/-- `translate_multi(text, mapping_dict)` (the `pd.isna` guard is modelled by
the empty-string case only, as all modelled inputs are strings). -/
def translate_multi (m : List (List Char × List Char)) (text : List Char) :
    List Char :=
  if text = [] then text
  else
    match firstSep text with
    | some sep => List.intercalate sep (tmLabels m text)
    | none => translateTok m (trimL text)

/-- The separator-candidate list as the spec's words state it:
`", "` before `","` before `";"` (claim C4).  This is the *specified*
priority list, to be compared with `SEPARATORS` from the source. -/
def SEPARATORS_spec : List (List Char) :=
  [[',', ' '], [','], [';']]

/-- First-occurring separator according to the spec's candidate list. -/
def firstSep_spec (text : List Char) : Option (List Char) :=
  SEPARATORS_spec.find? (fun sep => containsSeq sep text)

/-! ## Warehouse-floor ordered categorical (`unified.py`, `clean_survey` §3.6)

    floors = sorted(df["warehouse_floor"].dropna().unique(),
                    key=lambda x: float(re.sub(r"[^0-9.-]", "", str(x)) or 0))
    df["warehouse_floor"] = df["warehouse_floor"].astype(
        CategoricalDtype(categories=floors, ordered=True))
-/

/-- `re.sub(r"[^0-9.-]", "", s)`: keep only digits, dots and minus signs. -/
def stripNonNum (l : List Char) : List Char :=
  l.filter (fun c => c.isDigit || c = '.' || c = '-')

/-- Numeric value of a digit string (most-significant first). -/
def digitsVal (l : List Char) : ℕ :=
  l.foldl (fun a c => 10 * a + (c.toNat - 48)) 0

/-- Python `float()` on a string made of digits, dots and minus signs:
an optional leading minus, then digits with at most one dot and at least one
digit.  `none` models `float()` raising `ValueError`. -/
def parsePyFloat? (l : List Char) : Option ℚ :=
  match l with
  | '-' :: rest =>
    match parsePyFloatUnsigned? rest with
    | some q => some (-q)
    | none => none
  | _ => parsePyFloatUnsigned? l
where
  /-- unsigned case: `"123"`, `"1.5"`, `".5"`, `"5."` -/
  parsePyFloatUnsigned? (l : List Char) : Option ℚ :=
    match splitOnL ['.'] l with
    | [ip] =>
      if ip ≠ [] && ip.all Char.isDigit then some (digitsVal ip) else none
    | [ip, fp] =>
      if (ip ++ fp) ≠ [] && ip.all Char.isDigit && fp.all Char.isDigit then
        some ((digitsVal ip : ℚ) + (digitsVal fp : ℚ) / ((10 : ℚ) ^ fp.length))
      else none
    | _ => none

/-- The sort key of the floor-category construction:
`float(re.sub(r"[^0-9.-]", "", str(x)) or 0)`.  `none` models the `float()`
call raising on a stripped string that is not a valid number. -/
def floorKey? (s : List Char) : Option ℚ :=
  let t := stripNonNum s
  if t = [] then some 0 else parsePyFloat? t

/-- Total version of the key used by the sort; the theorems about it carry
the hypothesis that every key actually parses, which is exactly when the
Python code runs without raising. -/
def floorKey (s : List Char) : ℚ := (floorKey? s).getD 0

/-- Comparison underlying `sorted(..., key=floorKey)`. -/
def floorLE (a b : List Char) : Prop := floorKey a ≤ floorKey b

instance : DecidableRel floorLE := fun x y =>
  inferInstanceAs (Decidable (floorKey x ≤ floorKey y))

instance : IsTotal (List Char) floorLE := ⟨fun x y => le_total (floorKey x) (floorKey y)⟩

instance : IsTrans (List Char) floorLE := ⟨fun _ _ _ => le_trans⟩

/-- The declared category order for `warehouse_floor`: the observed level
strings sorted (stably, as Python's `sorted`) by their embedded numeric
value. -/
def floorCategories (xs : List (List Char)) : List (List Char) :=
  List.insertionSort floorLE xs

/-! ## Best-effort column drop (claim C7)

`unified.py`, `clean_survey` §3.3:

    drop_lower = {c.lower() for c in DROP_COLS}
    df = df.drop(columns=[c for c in df.columns if c in drop_lower], errors="ignore")

`final_cleaning_survey.py`, `dataframe_cleaning`:

    df = df.drop(col_out, axis=1)        # no errors="ignore"
-/

/-- `df.drop(columns=toDrop)`: pandas raises `KeyError` when any requested
label is absent unless `errors="ignore"` is passed; otherwise the result
keeps exactly the columns not listed. -/
def pdDrop (errorsIgnore : Bool) (cols toDrop : List (List Char)) :
    Except Unit (List (List Char)) :=
  if !errorsIgnore && !(toDrop.all (fun t => cols.contains t)) then
    Except.error ()
  else
    Except.ok (cols.filter (fun c => !(toDrop.contains c)))

/-- The configured exclusion set of `unified.py` (`DROP_COLS`), already
lower-case in the source. -/
def DROP_COLS : List (List Char) :=
  ["id", "db", "marca temporal", "correo electrónico", "teléfono de contacto",
   "ir al fin de la encuesta.",
   "de acuerdo con el tipo de carga que distribuye su empresa, indique máximo 3 tipos en el siguiente listado:",
   "¿el origen de la mercancía que transporta es el valle de aburrá?",
   "por favor, indique el municipio:",
   "por favor, indique cuántas entregas hace en el centro de medellín al día:",
   "por favor, indique el número de establecimientos que surte en el centro de medellín a diario:",
   "¿cuántos pedidos recibe su empresa diariamente que tienen como destino el centro de medellín?",
   "por favor indique la cantidad de vehículos con combustión a diésel (acpm) con los que cuenta su empresa:",
   "por favor indique la cantidad de vehículos con combustión a gasolina con los que cuenta su empresa:",
   "por favor indique la cantidad de vehículos con combustión a gas natural vehicular (gnv) con los que cuenta su empresa:",
   "por favor indique la cantidad de vehículos con motor eléctrico con los que cuenta su empresa:",
   "por favor, indique el rango de edad promedio del parque vehicular de su empresa [modelos anteriores a 1990]",
   "por favor, indique el rango de edad promedio del parque vehicular de su empresa [modelos entre 1991 y 2000]",
   "por favor, indique el rango de edad promedio del parque vehicular de su empresa [modelos entre 2001 y 2010]",
   "por favor, indique el rango de edad promedio del parque vehicular de su empresa [modelos entre 2011 y 2015]",
   "por favor, indique el rango de edad promedio del parque vehicular de su empresa [modelos del 2016 en adelante]",
   "¿cuánto es el rendimiento en galones/kilómetro, de sus vehículos a acpm?",
   "¿cuánto es el rendimiento en galones/kilómetro, de sus vehículos a gasolina?",
   "¿cuánto es el rendimiento en metros cúbicos/kilómetro, de sus vehículos a gnv?",
   "¿cuánto es el rendimiento kilowatt-hora, de sus vehículos eléctricos?",
   "¿cuánto es el costo total por movilizar un camión cargado hacia el centro de medellín?",
   "¿cuántas horas al volante permanece durante un turno de reparto una/un conductora/or en su empresa?",
   "de acuerdo con la siguiente escala, donde 1 es \"muy compleja\" y 5 es \"muy adecuada\" ¿cómo considera la relación de sus conductores con los demás actores viales (peatones, ciclistas, conductores, transporte público) en el espacio público de la zuap?",
   "¿al interior de su empresa se realizan actividades que promuevan la actividad física entre sus calaboradoras/es?",
   "¿qué actividades se realizan?",
   "¿cuántas veces por semana se realizan actividades para promover la actividad física?",
   "¿conoce usted el decreto no 1790 de noviembre 20 de 2012 (decreto de zona amarilla o de cargue y descargue en el centro de la ciudad)?"
  ].map String.data

/-- `{c.lower() for c in DROP_COLS}`. -/
def drop_lower : List (List Char) := DROP_COLS.map pyLower

/-- The drop step of `clean_survey` (`unified.py`): intersect the exclusion
set with the columns actually present, then drop with `errors="ignore"`. -/
def cleanSurveyDrop (cols : List (List Char)) :
    Except Unit (List (List Char)) :=
  pdDrop true cols (cols.filter (fun c => drop_lower.contains c))

/-- The configured exclusion list `col_out` of
`final_cleaning_survey.py`, `dataframe_cleaning` (mixed case, applied before
headers are lower-cased). -/
def col_out : List (List Char) :=
  ["id", "db", "Marca temporal", "Correo electrónico", "Teléfono de contacto",
   "Ir al fin de la encuesta.", "Nombre de la empresa",
   "De acuerdo con el tipo de carga que distribuye su empresa, indique máximo 3 tipos en el siguiente listado:",
   "¿El origen de la mercancía que transporta es el Valle de Aburrá?",
   "Por favor, indique el municipio:",
   "Por favor, indique cuántas entregas hace en el centro de Medellín al día:",
   "Por favor, indique el número de establecimientos que surte en el centro de Medellín a diario:",
   "¿Cuántos pedidos recibe su empresa diariamente que tienen como destino el centro de Medellín?",
   "Por favor indique la cantidad de vehículos con combustión a diésel (ACPM) con los que cuenta su empresa:",
   "Por favor indique la cantidad de vehículos con combustión a gasolina con los que cuenta su empresa:",
   "Por favor indique la cantidad de vehículos con combustión a gas natural vehicular (GNV) con los que cuenta su empresa:",
   "Por favor indique la cantidad de vehículos con motor eléctrico con los que cuenta su empresa:",
   "Por favor, indique el rango de edad promedio del parque vehicular de su empresa [Modelos anteriores a 1990]",
   "Por favor, indique el rango de edad promedio del parque vehicular de su empresa [Modelos entre 1991 y 2000]",
   "Por favor, indique el rango de edad promedio del parque vehicular de su empresa [Modelos entre 2001 y 2010]",
   "Por favor, indique el rango de edad promedio del parque vehicular de su empresa [Modelos entre 2011 y 2015]",
   "Por favor, indique el rango de edad promedio del parque vehicular de su empresa [Modelos del 2016 en adelante]",
   "¿Cuánto es el rendimiento en galones/kilómetro, de sus vehículos a ACPM?",
   "¿Cuánto es el rendimiento en galones/kilómetro, de sus vehículos a gasolina?",
   "¿Cuánto es el rendimiento en metros cúbicos/kilómetro, de sus vehículos a GNV?",
   "¿Cuánto es el rendimiento kilowatt-hora, de sus vehículos eléctricos?",
   "¿Cuánto es el costo total por movilizar un camión cargado hacia el centro de Medellín?",
   "¿Cuántas horas al volante permanece durante un turno de reparto una/un conductora/or en su empresa?",
   "De acuerdo con la siguiente escala, donde 1 es \"Muy compleja\" y 5 es \"Muy adecuada\" ¿Cómo considera la relación de sus conductores con los demás actores viales (peatones, ciclistas, conductores, transporte público) en el espacio público de la ZUAP?",
   "¿Al interior de su empresa se realizan actividades que promuevan la actividad física entre sus calaboradoras/es?",
   "¿Qué actividades se realizan?",
   "¿Cuántas veces por semana se realizan actividades para promover la actividad física?",
   "¿Conoce usted el Decreto No 1790 de noviembre 20 de 2012 (Decreto de Zona Amarilla o de cargue y descargue en el centro de la ciudad)?"
  ].map String.data

/-- The drop step of `dataframe_cleaning` (`final_cleaning_survey.py`):
`df.drop(col_out, axis=1)` with no `errors="ignore"`. -/
def dataframeCleaningDrop (cols : List (List Char)) :
    Except Unit (List (List Char)) :=
  pdDrop false cols col_out

/-! ## Cells and numeric coercion (claim C8)

`unified.py`, `clean_survey` §3.6:

    for col in NUMERIC_COLS: df[col] = pd.to_numeric(df[col], errors="coerce")
    for col in PCT_COLS:     df[col] = pd.to_numeric(df[col], errors="coerce")

`survey_cleaning.py` §3.5:

    for col in ["female_percentage", "pct_female_in_distribution",
                "pct_female_with_contract"]:
        df_clean[col] = df_clean[col].astype(float)
-/

/-- One table cell: missing (`NaN`), a string, or a number. -/
inductive Cell : Type
  | na : Cell
  | cstr : List Char → Cell
  | cnum : ℚ → Cell
deriving DecidableEq

/-- Parse one cell to a float the way both `pd.to_numeric` and
`astype(float)` read values: numbers pass through, strings are stripped and
parsed, `NaN` stays missing; `none` is the missing/unparsable outcome. -/
def parseCellNum? (c : Cell) : Option ℚ :=
  match c with
  | Cell.na => none
  | Cell.cnum q => some q
  | Cell.cstr s => parsePyFloat? (trimL s)

/-- Is this cell one `astype(float)` can convert (missing converts to
`NaN` without an error; an unparsable *string* raises)? -/
def cellFloatOk (c : Cell) : Bool :=
  match c with
  | Cell.cstr s => (parsePyFloat? (trimL s)).isSome
  | _ => true

/-- `pd.to_numeric(col, errors="coerce")`: total, row-preserving; unparsable
values become the missing sentinel. -/
def to_numeric_coerce (col : List Cell) : List (Option ℚ) :=
  col.map parseCellNum?

/-- `col.astype(float)`: raises (`Except.error`) as soon as any cell holds a
string `float()` cannot parse. -/
def astype_float (col : List Cell) : Except Unit (List (Option ℚ)) :=
  if col.all cellFloatOk then Except.ok (col.map parseCellNum?)
  else Except.error ()

/-! ## Row-normalized cross-tabulations (claim C6)

`final_cleaning_survey.py`, `transportation_mode` (and every sibling):

    df = df.groupby(['est_type', 'transp_type']).count()
           .rename(columns={'employees': 'frequency'}).reset_index()
    df = df.pivot(index='est_type', columns='transp_type', values='frequency').fillna(0)
    df = df.div(df.sum(axis=1), axis=0)

`unified.py`, `compute_percentage_distributions` is the same three steps.
-/

/-- One row of the pivoted frequency table: for the group `g`, the count of
records carrying each label of `cols`. -/
def pivotRow (records : List (List Char × List Char)) (g : List Char)
    (cols : List (List Char)) : List ℕ :=
  cols.map (fun v => (records.filter (fun r => r.1 = g && r.2 = v)).length)

/-- `df.div(df.sum(axis=1), axis=0)` on one row of counts.  Dividing by a
zero row total yields no finite number (pandas produces `NaN` there, since
every entry of a zero-total count row is itself `0`); that is the `none`
case. -/
def rowProportions (row : List ℕ) : List (Option ℚ) :=
  row.map (fun (c : ℕ) =>
    if row.sum = 0 then none else some ((c : ℚ) / ((row.sum : ℕ) : ℚ)))

/-! ## Delivery-mode unification and keyword extraction (claim C1)

`final_cleaning_survey.py`, `traditional_deliveries`:

    df['delivery_transp_mode'] = df['delivery_transp_mode'].str.strip()
    df['delivery_transp_mode'] = df['delivery_transp_mode'].str.replace(r".*ning.*", 'No', regex=True, case=False)
    df['delivery_transp_mode'] = df['delivery_transp_mode'].str.split(',\s*')
    df = df.explode('delivery_transp_mode')
    df['delivery_transp_mode'] = df['delivery_transp_mode'].replace(to_unify)

and `transportation_mode`:

    transp_mode = ['camión', 'motocicleta', 'bicicleta', 'carreta', 'particular']
    df['transp_type'] = df['supply_unloading'].apply(
        lambda x: [word for word in transp_mode if word.lower() in x.lower()])
-/

/-- `str.replace(r".*ning.*", 'No', regex=True, case=False)`: the greedy
pattern matches the whole string whenever it contains `ning` in any case, so
such strings are rewritten to `No` and all others kept. -/
def ningToNo (s : List Char) : List Char :=
  if containsSeq ['n', 'i', 'n', 'g'] (pyLower s) then ['N', 'o'] else s

/-- Worker for `splitCommaWS`, structurally recursive on a fuel bound so
that it reduces inside the kernel; the fuel always dominates the list
length, so the `0` case is never reached from `splitCommaWS`. -/
def splitCommaWSGo : ℕ → List Char → List (List Char)
  | _, [] => [[]]
  | 0, l => [l]
  | fuel + 1, c :: rest =>
    if c = ',' then [] :: splitCommaWSGo fuel (rest.dropWhile pySpace)
    else
      match splitCommaWSGo fuel rest with
      | t :: ts => (c :: t) :: ts
      | [] => [[c]]

/-- Regex split on `,\s*`: each comma together with the whitespace run
following it separates tokens. -/
def splitCommaWS (l : List Char) : List (List Char) :=
  splitCommaWSGo l.length l

/-- The `to_unify` exact-replacement dictionary of `traditional_deliveries`
(Spanish survey answer → canonical English label).  The `np.nan` key of the
source dictionary concerns exploded missing cells and is outside this
string-to-string table. -/
def to_unify_deliveries : List (List Char × List Char) :=
  [("Motocicleta", "Motorcycle"), ("No se realizan domicilios", "No deliveries"),
   ("Furgón", "Van/Car"),
   ("Carreta \"zorrilla\"", "Handcart"), ("Caminata", "Walking"),
   ("Vehículo particular", "Van/Car"),
   ("Van", "Van/Car"), ("Carro particular", "Van/Car"),
   ("Transportadora", "Carrier"),
   ("Empresa transportadora", "Carrier"), ("Servicio de mensajería", "Carrier"),
   ("Servicios de mensajería", "Carrier"),
   ("Camioneta", "Van/Car"), ("Bicicleta normal", "Bike/Cargo Bike"),
   ("Bicicleta de carga", "Bike/Cargo Bike"),
   ("No aplica", "No deliveries"), ("No se hacen envíos", "No deliveries"),
   ("Na", "No deliveries"), ("No", "No deliveries"),
   ("Trasnportadora", "Carrier"), ("Transportadoras", "Carrier"),
   ("Mensajeria contratada", "Carrier"),
   ("Motocarga gasolina", "Threewheeler")
  ].map (fun p => (p.1.data, p.2.data))

/-- `series.replace(to_unify)` on one exploded token: exact-match
replacement, pass-through otherwise. -/
def unifyDeliveryTok (t : List Char) : List Char :=
  translateTok to_unify_deliveries t

/-- The per-cell label list of `traditional_deliveries`: strip, rewrite
`ning`-strings to `No`, split on `,\s*` (one row per token after the
explode), then exact-replace each token through `to_unify`. -/
def traditionalDeliveryLabels (s : List Char) : List (List Char) :=
  (splitCommaWS (ningToNo (trimL s))).map unifyDeliveryTok

/-- The fixed transport-keyword vocabulary of `transportation_mode`. -/
def transp_mode : List (List Char) :=
  ["camión".data, "motocicleta".data, "bicicleta".data, "carreta".data,
   "particular".data]

/-- `[word for word in transp_mode if word.lower() in x.lower()]`. -/
def transpTypeLabels (x : List Char) : List (List Char) :=
  transp_mode.filter (fun w => containsSeq (pyLower w) (pyLower x))

/-! ## One-hot encoding of multi-label columns (claim C10)

`unified.py`, `create_one_hot_encoding`:

    if column not in df.columns: return df
    df_encoded = df.copy()
    prefix = prefix or column
    all_values = list(mapping_dict.values())
    for value in all_values:
        col_name = f"{prefix}_{value.replace(' ', '_').replace('/', '_').lower()}"
        df_encoded[col_name] = df_encoded[column].apply(
            lambda x: 1 if pd.notna(x) and value in str(x) else 0)
    return df_encoded
-/

/-- A DataFrame: ordered association list from column name to cells. -/
def Frame : Type := List (List Char × List Cell)

/-- Column access (`df[name]`). -/
def getCol (df : Frame) (name : List Char) : Option (List Cell) :=
  match df with
  | [] => none
  | (m, w) :: rest => if m = name then some w else getCol rest name

/-- Column assignment (`df[name] = vals`): overwrite in place when the
column exists, append at the end otherwise. -/
def setCol (df : Frame) (name : List Char) (vals : List Cell) : Frame :=
  match df with
  | [] => [(name, vals)]
  | (m, w) :: rest =>
    if m = name then (name, vals) :: rest else (m, w) :: setCol rest name vals

/-- `pd.notna(x)`. -/
def cellNotNa (c : Cell) : Bool :=
  match c with
  | Cell.na => false
  | _ => true

/-- `str(x)` on a cell: strings verbatim; `NaN` prints as `nan`; numbers via
their decimal representation (only the string cases matter to the claims). -/
def strOfCell (c : Cell) : List Char :=
  match c with
  | Cell.na => ['n', 'a', 'n']
  | Cell.cstr s => s
  | Cell.cnum q => (toString q).data

/-- `value.replace(' ', '_').replace('/', '_').lower()`. -/
def sanitizeVal (v : List Char) : List Char :=
  pyLower (v.map (fun c => if c = ' ' || c = '/' then '_' else c))

/-- `f"{prefix}_{...}"`: the generated indicator-column name. -/
def genName (p v : List Char) : List Char := p ++ '_' :: sanitizeVal v

/-- `1 if pd.notna(x) and value in str(x) else 0`. -/
def indicatorCell (v : List Char) (x : Cell) : Cell :=
  if cellNotNa x && containsSeq v (strOfCell x) then Cell.cnum 1 else Cell.cnum 0

/-- The loop of `create_one_hot_encoding`: for each mapping value, read the
*current* frame's source column (as the Python code reads
`df_encoded[column]` inside the loop) and assign the indicator column. -/
def oneHotFold (column p : List Char) (vs : List (List Char)) (acc : Frame) :
    Frame :=
  vs.foldl
    (fun a v =>
      setCol a (genName p v) (((getCol a column).getD []).map (indicatorCell v)))
    acc

/-- `create_one_hot_encoding(df, column, mapping_dict, prefix)`: unchanged
frame when the column is absent, otherwise one indicator assignment per
entry of `list(mapping_dict.values())`, with `prefix = prefix or column`. -/
def create_one_hot_encoding (df : Frame) (column : List Char)
    (mapping : List (List Char × List Char)) (pre : Option (List Char)) :
    Frame :=
  match getCol df column with
  | none => df
  | some _ => oneHotFold column (pre.getD column) (mapping.map Prod.snd) df

/-! ## Text normalization (claim C9)

`unified.py` `_normalize_text` / `survey_cleaning.py` `normalize_text`:

    s = unicodedata.normalize("NFKD", s)
    s = "".join(c for c in s if not unicodedata.combining(c))
    s = s.lower().strip()
    s = re.sub(r"\s+", " ", s)

The NFKD decomposition and the combining-class test are modelled on the
alphabet the survey uses: the Spanish accented letters decompose into their
base letter plus a combining mark; every other modelled character is its own
(singleton) decomposition.
-/

/-- U+0301 combining acute accent. -/
def accAcute : Char := Char.ofNat 769

/-- U+0303 combining tilde. -/
def accTilde : Char := Char.ofNat 771

/-- U+0308 combining diaeresis. -/
def accDiaer : Char := Char.ofNat 776

/-- `unicodedata.combining(c) != 0` on the modelled alphabet. -/
def isCombining (c : Char) : Bool :=
  c = accAcute || c = accTilde || c = accDiaer

/-- NFKD decompositions of the accented letters used by the survey data. -/
def nfkdTable : List (Char × List Char) :=
  [('á', ['a', accAcute]), ('é', ['e', accAcute]), ('í', ['i', accAcute]),
   ('ó', ['o', accAcute]), ('ú', ['u', accAcute]),
   ('Á', ['A', accAcute]), ('É', ['E', accAcute]), ('Í', ['I', accAcute]),
   ('Ó', ['O', accAcute]), ('Ú', ['U', accAcute]),
   ('ñ', ['n', accTilde]), ('Ñ', ['N', accTilde]),
   ('ü', ['u', accDiaer]), ('Ü', ['U', accDiaer])]

/-- `unicodedata.normalize("NFKD", ·)` on one character. -/
def nfkdChar (c : Char) : List Char := (tblLookup nfkdTable c).getD [c]

/-- NFKD decomposition of a string. -/
def nfkdL (l : List Char) : List Char := l.flatMap nfkdChar

/-- Drop the combining marks left by the decomposition
(`"".join(c for c in s if not unicodedata.combining(c))`). -/
def stripAccents (l : List Char) : List Char :=
  (nfkdL l).filter (fun c => !isCombining c)

/-- `re.sub(r"\s+", " ", s)`: every maximal whitespace run becomes one
blank. -/
def collapseWS : List Char → List Char
  | [] => []
  | c :: cs =>
    if pySpace c then ' ' :: collapseWS (cs.dropWhile pySpace)
    else c :: collapseWS cs
termination_by l => l.length
decreasing_by
  · simp only [List.length_cons]
    exact Nat.lt_succ_of_le ((List.dropWhile_sublist _).length_le)
  · simp

/-- `_normalize_text` on a (non-missing) string: NFKD, strip combining
marks, lower-case, strip, collapse whitespace. -/
def normalizeTextL (l : List Char) : List Char :=
  collapseWS (trimL (pyLower (stripAccents l)))

/-- `_normalize_text` at `String` type. -/
def normalize_text (s : String) : String := String.mk (normalizeTextL s.data)

/-! ## Predicates used to state and prove the claims -/

/-- A character already in normal form: its own NFKD decomposition, not a
combining mark, and fixed by lower-casing. -/
def goodChar (c : Char) : Bool :=
  (nfkdChar c == [c]) && !isCombining c && (pyLowerChar c == c)

/-- The first character, if any, is not whitespace. -/
def headNotSpace (l : List Char) : Bool :=
  match l with
  | [] => true
  | c :: _ => !pySpace c

/-- The last character, if any, is not whitespace. -/
def lastNotSpace (l : List Char) : Bool := headNotSpace l.reverse

/-- Canonical whitespace: every whitespace character is a single blank and
no whitespace character is followed by another. -/
def wsCanon : List Char → Bool
  | [] => true
  | c :: cs => (!pySpace c || (c = ' ' && headNotSpace cs)) && wsCanon cs

/-- A string on which `_normalize_text` acts as the identity. -/
def isNormalL (l : List Char) : Bool :=
  l.all goodChar && wsCanon l && headNotSpace l && lastNotSpace l

/-- The exact survey answers that `traditional_deliveries` unifies into the
canonical `No deliveries` label (the keys of `to_unify` whose value is
`No deliveries`, plus the label itself, which passes through verbatim). -/
def noActivityTokens : List (List Char) :=
  ["No se realizan domicilios", "No aplica", "No se hacen envíos", "Na",
   "No", "No deliveries"].map String.data

/-! # Theorems -/

/-! ## Generic helper lemmas -/

theorem startsWithL_iff {n h : List Char} :
    startsWithL n h = true ↔ ∃ t, h = n ++ t := by
  induction n generalizing h with
  | nil => simp [startsWithL]
  | cons a as ih =>
    cases h with
    | nil =>
      simp only [startsWithL, List.cons_append]
      constructor
      · intro hf; cases hf
      · rintro ⟨t, ht⟩; cases ht
    | cons b bs =>
      simp only [startsWithL, Bool.and_eq_true, decide_eq_true_eq, ih,
        List.cons_append]
      constructor
      · rintro ⟨rfl, t, rfl⟩; exact ⟨t, rfl⟩
      · rintro ⟨t, ht⟩
        injection ht with h1 h2
        exact ⟨h1.symm, t, h2⟩

theorem containsSeq_iff {n h : List Char} :
    containsSeq n h = true ↔ ∃ s t, h = s ++ n ++ t := by
  induction h with
  | nil =>
    simp only [containsSeq, List.isEmpty_iff]
    constructor
    · rintro rfl; exact ⟨[], [], rfl⟩
    · rintro ⟨s, t, ht⟩
      rcases List.append_eq_nil.1 ht.symm with ⟨h1, h2⟩
      exact (List.append_eq_nil.1 h1).2
  | cons c rest ih =>
    simp only [containsSeq, Bool.or_eq_true, startsWithL_iff, ih]
    constructor
    · rintro (⟨t, ht⟩ | ⟨s, t, ht⟩)
      · exact ⟨[], t, by simp [ht]⟩
      · exact ⟨c :: s, t, by simp [ht]⟩
    · rintro ⟨s, t, ht⟩
      cases s with
      | nil => exact Or.inl ⟨t, by simpa using ht⟩
      | cons x xs =>
        injection ht with h1 h2
        exact Or.inr ⟨xs, t, h2⟩

theorem containsSeq_trans {a b c : List Char} (h1 : containsSeq a b = true)
    (h2 : containsSeq b c = true) : containsSeq a c = true := by
  rw [containsSeq_iff] at h1 h2 ⊢
  obtain ⟨s1, t1, rfl⟩ := h1
  obtain ⟨s2, t2, rfl⟩ := h2
  exact ⟨s2 ++ s1, t1 ++ t2, by simp⟩

/-- Every element strictly before the one `find?` returns fails the
predicate. -/
theorem find?_earlier_false {α : Type} [DecidableEq α] {p : α → Bool}
    {l : List α} {x : α} (hf : l.find? p = some x) :
    ∀ y ∈ l.takeWhile (fun z => z ≠ x), p y = false := by
  induction l with
  | nil => simp at hf
  | cons a l ih =>
    intro y hy
    by_cases hpa : p a = true
    · rw [List.find?_cons_of_pos _ hpa] at hf
      injection hf with hf
      subst hf
      simp [List.takeWhile] at hy
    · have hpa' : p a = false := by simpa using hpa
      rw [List.find?_cons_of_neg _ (by simp [hpa'])] at hf
      have hax : a ≠ x := by
        rintro rfl
        have := List.find?_some hf
        rw [this] at hpa'
        cases hpa'
      rw [List.takeWhile_cons_of_pos (by simpa using hax)] at hy
      rcases List.mem_cons.1 hy with rfl | hy'
      · exact hpa'
      · exact ih hf y hy'

/-- A value found by table lookup is a table entry. -/
theorem tblLookup_mem {α : Type} {t : List (Char × α)} {c : Char} {v : α}
    (h : tblLookup t c = some v) : (c, v) ∈ t := by
  induction t with
  | nil => cases h
  | cons p rest ih =>
    rw [tblLookup] at h
    split at h
    · injection h with h
      subst h
      rename_i heq
      exact heq ▸ List.mem_cons_self _ _
    · exact List.mem_cons_of_mem _ (ih h)

/-- A value found by dictionary lookup is a dictionary entry. -/
theorem dictLookup_mem {m : List (List Char × List Char)} {t v : List Char}
    (h : dictLookup m t = some v) : (t, v) ∈ m := by
  induction m with
  | nil => cases h
  | cons p rest ih =>
    rw [dictLookup] at h
    split at h
    · injection h with h
      subst h
      rename_i heq
      exact heq ▸ List.mem_cons_self _ _
    · exact List.mem_cons_of_mem _ (ih h)

/-- `translateTok` either returns a dictionary entry for the token or the
token itself (with no entry present). -/
theorem translateTok_cases (m : List (List Char × List Char))
    (t : List Char) :
    (t, translateTok m t) ∈ m ∨
      (dictLookup m t = none ∧ translateTok m t = t) := by
  unfold translateTok
  cases h : dictLookup m t with
  | none => exact Or.inr ⟨rfl, rfl⟩
  | some v => exact Or.inl (dictLookup_mem h)

/-- Pairs of a list zipped with its image under a map. -/
theorem zip_map_self {α β : Type} {l : List α} {f : α → β}
    {p : α × β} (hp : p ∈ l.zip (l.map f)) : p.2 = f p.1 := by
  induction l with
  | nil => simp at hp
  | cons a l ih =>
    rw [List.map_cons, List.zip_cons_cons] at hp
    rcases List.mem_cons.1 hp with rfl | hp'
    · rfl
    · exact ih hp'

/-! ## Claim C5 — establishment-type derivation is first-match-wins -/

/-- Claim C5: establishment-type derivation is first-match-wins over the
fixed ordered list `['Proveedor', 'Venta al detalle', 'Fabricante',
'Ventas por internet']`: whenever a phrase is assigned it is a phrase of the
list whose lower-cased form occurs in the lower-cased text and every phrase
listed before it does not match, and the result is `none` exactly when no
phrase matches. -/
theorem C5_establishment_type_first_match_wins (x : List Char) :
    (∀ w, categorize_establishment_type x = some w →
      w ∈ est_types ∧ estMatch x w = true ∧
        ∀ w' ∈ est_types.takeWhile (fun z => z ≠ w), estMatch x w' = false) ∧
    (categorize_establishment_type x = none ↔
      ∀ w ∈ est_types, estMatch x w = false) := by
  constructor
  · intro w hw
    have hw' : est_types.find? (estMatch x) = some w := hw
    exact ⟨List.mem_of_find?_eq_some hw', List.find?_some hw',
      find?_earlier_false hw'⟩
  · simp [categorize_establishment_type, List.find?_eq_none]

/-- Witness for C5 at the spec's own end-to-end example text
`"Venta al detalle de ropa"`: the second phrase is assigned, it matches, and
the phrase before it (`'Proveedor'`) does not. -/
theorem C5_witness :
    categorize_establishment_type "Venta al detalle de ropa".data =
        some "Venta al detalle".data ∧
      "Venta al detalle".data ∈ est_types ∧
      estMatch "Venta al detalle de ropa".data "Venta al detalle".data = true ∧
      estMatch "Venta al detalle de ropa".data "Proveedor".data = false := by
  have hsome : categorize_establishment_type "Venta al detalle de ropa".data =
      some "Venta al detalle".data := by decide
  have h := (C5_establishment_type_first_match_wins
    "Venta al detalle de ropa".data).1 _ hsome
  exact ⟨hsome, h.1, h.2.1, h.2.2 _ (by decide)⟩

/-! ## Claim C2 — unmapped multi-label tokens pass through -/

/-- Claim C2: `translate_multi` never drops a token.  The translated item
list has exactly one entry per stripped input token; each entry is the
dictionary translation when the token is in the vocabulary and the token
verbatim otherwise (in particular every unmapped token reappears in the
output), and the returned string is exactly the translated items rejoined
with the chosen separator (or the single translated token when no separator
occurs). -/
theorem C2_translate_multi_passthrough (m : List (List Char × List Char))
    (text : List Char) :
    (tmLabels m text).length = (tmTokens text).length ∧
    (∀ p ∈ (tmTokens text).zip (tmLabels m text),
      (p.1, p.2) ∈ m ∨ (dictLookup m p.1 = none ∧ p.2 = p.1)) ∧
    (∀ t ∈ tmTokens text, dictLookup m t = none → t ∈ tmLabels m text) ∧
    (∀ sep, text ≠ [] → firstSep text = some sep →
      translate_multi m text = List.intercalate sep (tmLabels m text)) ∧
    (text ≠ [] → firstSep text = none →
      translate_multi m text = translateTok m (trimL text)) := by
  refine ⟨by simp [tmLabels], ?_, ?_, ?_, ?_⟩
  · intro p hp
    have h2 := zip_map_self (f := translateTok m) hp
    rw [h2]
    exact translateTok_cases m p.1
  · intro t ht hnone
    have : translateTok m t = t := by simp [translateTok, hnone]
    exact this ▸ List.mem_map_of_mem (translateTok m) ht
  · intro sep hne hsep
    simp [translate_multi, hne, hsep]
  · intro hne hnone
    simp [translate_multi, hne, hnone]

/-- Witness for C2 at the day-of-week vocabulary fragment
`{'Lunes' ↦ 'Monday'}` and the text `"Lunes, Otro"`: the unmapped token
`"Otro"` passes through verbatim and the output keeps both tokens. -/
theorem C2_witness :
    tmTokens "Lunes, Otro".data = ["Lunes".data, "Otro".data] ∧
      "Otro".data ∈ tmLabels [("Lunes".data, "Monday".data)] "Lunes, Otro".data ∧
      translate_multi [("Lunes".data, "Monday".data)] "Lunes, Otro".data =
        "Monday, Otro".data := by
  have h := C2_translate_multi_passthrough [("Lunes".data, "Monday".data)]
    "Lunes, Otro".data
  refine ⟨by decide, ?_, ?_⟩
  · exact h.2.2.1 "Otro".data (by decide) (by decide)
  · have := h.2.2.2.1 [',', ' '] (by decide) (by decide)
    rw [this]
    decide

/-! ## Claim C4 — separator priority order -/

/-- Counterexample to claim C4: the source's candidate list is
`[", ", "; ", ",", ";"]`, not the spec's `[", ", ",", ";"]`.  On the input
`"x; y,z"` the code picks `"; "` (and splits into `["x", "y,z"]`), while the
claimed three-candidate priority would pick `","` (splitting into
`["x; y", "z"]`). -/
theorem C4_counterexample :
    firstSep "x; y,z".data = some [';', ' '] ∧
      firstSep_spec "x; y,z".data = some [','] ∧
      firstSep "x; y,z".data ≠ firstSep_spec "x; y,z".data ∧
      tmTokens "x; y,z".data = ["x".data, "y,z".data] ∧
      tmTokens "x; y,z".data ≠ (splitOnL [','] "x; y,z".data).map trimL := by
  refine ⟨by decide, by decide, by decide, by decide, by decide⟩

/-- Claim C4 as amended: splitting tries the delimiter candidates in the
fixed source order `", "`, `"; "`, `","`, `";"`; the text is split on the
first candidate in that order that occurs in it, no later candidate is used
when an earlier one occurs, and no candidate is chosen exactly when none
occurs. -/
theorem C4_separator_priority (text : List Char) :
    (∀ sep, firstSep text = some sep →
      sep ∈ SEPARATORS ∧ containsSeq sep text = true ∧
        (∀ s ∈ SEPARATORS.takeWhile (fun z => z ≠ sep),
          containsSeq s text = false) ∧
        tmTokens text = (splitOnL sep text).map trimL) ∧
    (firstSep text = none ↔ ∀ s ∈ SEPARATORS, containsSeq s text = false) := by
  constructor
  · intro sep hsep
    have hsep' : SEPARATORS.find? (fun s => containsSeq s text) = some sep := hsep
    refine ⟨List.mem_of_find?_eq_some hsep', ?_, find?_earlier_false hsep', ?_⟩
    · simpa using List.find?_some hsep'
    · simp [tmTokens, hsep]
  · simp [firstSep, List.find?_eq_none]

/-- Witness for C4 at `"a; b"`: the candidate `", "` does not occur, so the
second candidate `"; "` is chosen and the text splits into `["a", "b"]`. -/
theorem C4_witness :
    firstSep "a; b".data = some [';', ' '] ∧
      containsSeq [';', ' '] "a; b".data = true ∧
      containsSeq [',', ' '] "a; b".data = false ∧
      tmTokens "a; b".data = ["a".data, "b".data] := by
  have hsep : firstSep "a; b".data = some [';', ' '] := by decide
  have h := (C4_separator_priority "a; b".data).1 _ hsep
  refine ⟨hsep, h.2.1, h.2.2.1 _ (by decide), ?_⟩
  rw [h.2.2.2]
  decide

/-! ## Claim C3 — floor levels sort by embedded numeric value -/

/-- Claim C3: when every observed floor string has a parseable embedded
numeric value (which is exactly when the Python `float()` call succeeds),
the declared category order is a permutation of the observed strings that is
sorted by the parsed numeric key, not lexicographically. -/
theorem C3_floor_levels_sort_numerically (xs : List (List Char))
    (h : ∀ s ∈ xs, (floorKey? s).isSome = true) :
    (floorCategories xs).Perm xs ∧
      List.Sorted floorLE (floorCategories xs) ∧
      ∀ s ∈ xs, floorKey? s = some (floorKey s) := by
  refine ⟨List.perm_insertionSort floorLE xs,
    List.sorted_insertionSort floorLE xs, ?_⟩
  intro s hs
  have hsome := h s hs
  cases hkey : floorKey? s with
  | none => rw [hkey] at hsome; cases hsome
  | some q => simp [floorKey, hkey]

/-- Witness for C3 at the spec's own example `{"2", "10", "1"}`: every key
parses, and the declared order is `["1", "2", "10"]`, not the lexicographic
`["1", "10", "2"]`. -/
theorem C3_witness :
    (∀ s ∈ ["2", "10", "1"].map String.data, (floorKey? s).isSome = true) ∧
      floorCategories (["2", "10", "1"].map String.data) =
        ["1", "2", "10"].map String.data ∧
      floorCategories (["2", "10", "1"].map String.data) ≠
        ["1", "10", "2"].map String.data ∧
      List.Sorted floorLE (floorCategories (["2", "10", "1"].map String.data)) := by
  have hp : ∀ s ∈ ["2", "10", "1"].map String.data,
      (floorKey? s).isSome = true := by decide
  have h := C3_floor_levels_sort_numerically (["2", "10", "1"].map String.data) hp
  exact ⟨hp, by decide, by decide, h.2.1⟩

/-! ## Claim C6 — row-normalized cross-tabulations sum to one -/

/-- Claim C6: in the cross-tabulations built by the aggregation helpers
(`transportation_mode` and its siblings, `compute_percentage_distributions`),
a pivot row with non-zero frequency total is divided entrywise by that
total, and the resulting proportions sum to exactly `1`; a row with zero
total has no finite entries (pandas `NaN`). -/
theorem C6_row_proportions_sum_to_one (records : List (List Char × List Char))
    (g : List Char) (cols : List (List Char)) (row : List ℕ)
    (_hrow : row = pivotRow records g cols) :
    (row.sum ≠ 0 →
      rowProportions row =
          row.map (fun (c : ℕ) => some ((c : ℚ) / ((row.sum : ℕ) : ℚ))) ∧
        (row.map (fun (c : ℕ) => (c : ℚ) / ((row.sum : ℕ) : ℚ))).sum = 1) ∧
    (row.sum = 0 → ∀ e ∈ rowProportions row, e = none) := by
  constructor
  · intro h
    refine ⟨by simp [rowProportions, h], ?_⟩
    have key : ∀ (l : List ℕ) (T : ℚ),
        (l.map (fun (c : ℕ) => (c : ℚ) / T)).sum = ((l.sum : ℕ) : ℚ) / T := by
      intro l T
      induction l with
      | nil => simp
      | cons a l ih =>
        simp only [List.map_cons, List.sum_cons, ih]
        push_cast
        ring
    rw [key]
    exact div_self (Nat.cast_ne_zero.2 h)
  · intro h e he
    have hall : rowProportions row = row.map (fun _ => none) := by
      simp [rowProportions, h]
    rw [hall] at he
    obtain ⟨a, _, rfl⟩ := List.mem_map.1 he
    rfl

/-- Witness for C6: three records of group `"A"` over labels `{"x", "y"}`
pivot to the count row `[2, 1]`, whose proportions `[2/3, 1/3]` sum to
`1`. -/
theorem C6_witness :
    pivotRow [("A".data, "x".data), ("A".data, "y".data), ("A".data, "x".data)]
        "A".data ["x".data, "y".data] = [2, 1] ∧
      rowProportions [2, 1] = [some ((2 : ℚ) / 3), some ((1 : ℚ) / 3)] ∧
      (([2, 1] : List ℕ).map
        (fun (c : ℕ) => (c : ℚ) / ((([2, 1] : List ℕ).sum : ℕ) : ℚ))).sum = 1 := by
  have h := C6_row_proportions_sum_to_one
    [("A".data, "x".data), ("A".data, "y".data), ("A".data, "x".data)]
    "A".data ["x".data, "y".data] [2, 1] (by decide)
  have h1 := h.1 (by decide)
  refine ⟨by decide, ?_, h1.2⟩
  simp only [rowProportions]
  norm_num

/-! ## Claim C7 — best-effort column drop -/

/-- Counterexample to claim C7: the drop step of
`dataframe_cleaning` (`final_cleaning_survey.py`) is *not* best-effort — on
a table missing configured labels (here a table whose only column is
`"Barrio"`) it raises a `KeyError` instead of succeeding.  The drop step of
`clean_survey` (`unified.py`) on the corresponding table does succeed and
silently ignores the absent exclusion labels. -/
theorem C7_counterexample :
    dataframeCleaningDrop ["Barrio".data] = Except.error () ∧
      cleanSurveyDrop ["barrio".data, "id".data] =
        Except.ok ["barrio".data] := by
  exact ⟨rfl, rfl⟩

/-- Claim C7 as amended: the drop step of `clean_survey` (`unified.py`) is
best-effort — for every input table it succeeds, returns exactly the
columns not in the (lower-cased) exclusion set, and silently ignores
exclusion labels not present; the drop step of `dataframe_cleaning`
(`final_cleaning_survey.py`) instead succeeds only when every configured
label is present and raises otherwise. -/
theorem C7_drop_is_best_effort_only_in_unified (cols : List (List Char)) :
    (∃ kept, cleanSurveyDrop cols = Except.ok kept ∧
      kept = cols.filter (fun c => !(drop_lower.contains c)) ∧
      ∀ c, c ∈ kept ↔ c ∈ cols ∧ ¬ c ∈ drop_lower) ∧
    ((∀ t ∈ col_out, t ∈ cols) →
      dataframeCleaningDrop cols =
        Except.ok (cols.filter (fun c => !(col_out.contains c)))) ∧
    ((¬ ∀ t ∈ col_out, t ∈ cols) →
      dataframeCleaningDrop cols = Except.error ()) := by
  refine ⟨⟨cols.filter (fun c => !(drop_lower.contains c)), ?_, rfl, ?_⟩, ?_, ?_⟩
  · show pdDrop true cols (cols.filter (fun c => drop_lower.contains c)) = _
    rw [pdDrop]
    simp only [Bool.not_true, Bool.false_and, Bool.false_eq_true, if_false]
    refine congrArg Except.ok (List.filter_congr ?_)
    intro x hx
    simp [hx]
  · intro c
    simp [List.mem_filter]
  · intro hall
    have h : col_out.all (fun t => cols.contains t) = true := by
      rw [List.all_eq_true]
      intro t ht
      exact List.elem_eq_true_of_mem (hall t ht)
    rw [dataframeCleaningDrop, pdDrop, h]
    simp
  · intro hnall
    have h : col_out.all (fun t => cols.contains t) = false := by
      by_contra hne
      have htr : col_out.all (fun t => cols.contains t) = true := by
        revert hne
        cases col_out.all (fun t => cols.contains t) <;> simp
      rw [List.all_eq_true] at htr
      exact hnall (fun t ht => List.mem_of_elem_eq_true (htr t ht))
    rw [dataframeCleaningDrop, pdDrop, h]
    simp

/-- Witness for C7 at a one-column table `["barrio"]`: the unified drop
succeeds keeping the column, while the strict drop errors because the
configured label `"id"` (among others) is absent. -/
theorem C7_witness :
    cleanSurveyDrop ["barrio".data] = Except.ok ["barrio".data] ∧
      dataframeCleaningDrop ["barrio".data] = Except.error () := by
  have h := C7_drop_is_best_effort_only_in_unified ["barrio".data]
  obtain ⟨⟨kept, hok, hkept, _⟩, _, herr⟩ := h
  constructor
  · rw [hok, hkept]
    exact congrArg Except.ok (by decide)
  · exact herr (by decide)

/-! ## Claim C8 — numeric coercion never hard-fails (only in `unified.py`) -/

/-- Counterexample to claim C8: `survey_cleaning.py` casts its percentage
columns with `astype(float)`, which raises on an unparsable string value
such as `"abc"`; `pd.to_numeric(errors="coerce")` (used by `unified.py`) on
the same column instead coerces it to the missing sentinel. -/
theorem C8_counterexample :
    astype_float [Cell.cstr "abc".data] = Except.error () ∧
      to_numeric_coerce [Cell.cstr "abc".data] = [none] ∧
      to_numeric_coerce
          [Cell.cstr "abc".data, Cell.cstr "25".data, Cell.na] =
        [none, some (25 : ℚ), none] := by
  exact ⟨rfl, by decide, by decide⟩

/-- Claim C8 as amended: in `unified.py`'s `clean_survey`, numeric and
percentage columns are coerced with `pd.to_numeric(errors="coerce")`, which
never raises and keeps every row, converting parsable cells and mapping
unparsable ones to the missing sentinel; `survey_cleaning.py`'s percentage
cast `astype(float)` succeeds only when every cell parses and raises
otherwise. -/
theorem C8_numeric_coercion (col : List Cell) :
    (to_numeric_coerce col).length = col.length ∧
    (∀ p ∈ col.zip (to_numeric_coerce col), p.2 = parseCellNum? p.1) ∧
    (col.all cellFloatOk = true →
      astype_float col = Except.ok (to_numeric_coerce col)) ∧
    (col.all cellFloatOk = false → astype_float col = Except.error ()) := by
  refine ⟨by simp [to_numeric_coerce], ?_, ?_, ?_⟩
  · intro p hp
    exact zip_map_self hp
  · intro h
    simp [astype_float, h, to_numeric_coerce]
  · intro h
    simp [astype_float, h]

/-- Witness for C8 at the column `["abc", NaN, "2.5"]`: coercion keeps all
three rows, mapping the unparsable and missing cells to the sentinel, while
the strict float cast errors. -/
theorem C8_witness :
    (to_numeric_coerce [Cell.cstr "abc".data, Cell.na,
        Cell.cstr "2.5".data]).length = 3 ∧
      astype_float [Cell.cstr "abc".data, Cell.na, Cell.cstr "2.5".data] =
        Except.error () := by
  have h := C8_numeric_coercion
    [Cell.cstr "abc".data, Cell.na, Cell.cstr "2.5".data]
  exact ⟨h.1, h.2.2.2 (by decide)⟩

/-! ## Claim C1 — no-activity short-circuit -/

/-- Counterexample to claim C1: the free text
`"No se realizan domicilios en camión"` contains the designated no-activity
phrase, yet `traditional_deliveries` does *not* resolve it to the single
`No deliveries` label — the whole text passes through verbatim, because the
`to_unify` replacement matches exact tokens only, not substrings; and the
keyword extraction of `transportation_mode` has no no-activity check at all:
on the same sentence it extracts the vehicle keyword `camión` (the `Truck`
label). -/
theorem C1_counterexample :
    containsSeq "No se realizan domicilios".data
        "No se realizan domicilios en camión".data = true ∧
      traditionalDeliveryLabels "No se realizan domicilios en camión".data =
        ["No se realizan domicilios en camión".data] ∧
      traditionalDeliveryLabels "No se realizan domicilios en camión".data ≠
        ["No deliveries".data] ∧
      transpTypeLabels "no se realizan domicilios en camión".data =
        ["camión".data] := by
  exact ⟨by decide, by decide, by decide, by decide⟩

/-- Claim C1 as amended: the no-activity answers are recognized by *exact
token equality after comma-splitting*, not by a substring check preceding
keyword matching.  Each exploded token yields exactly one label; a token
exactly equal to `'No se realizan domicilios'` maps to `'No deliveries'`,
and only the designated no-activity tokens ever map to `'No deliveries'` (so
a single token never contributes both `'No deliveries'` and a vehicle
label); the keyword extraction of `transportation_mode` applies no
no-activity check — a vehicle keyword is extracted exactly when it occurs in
the lower-cased text, negation or not. -/
theorem C1_no_activity_is_exact_token_match (s x : List Char) :
    (traditionalDeliveryLabels s).length =
        (splitCommaWS (ningToNo (trimL s))).length ∧
    (∀ t ∈ splitCommaWS (ningToNo (trimL s)),
      unifyDeliveryTok t ∈ traditionalDeliveryLabels s) ∧
    unifyDeliveryTok "No se realizan domicilios".data = "No deliveries".data ∧
    (∀ t, unifyDeliveryTok t = "No deliveries".data → t ∈ noActivityTokens) ∧
    (∀ w ∈ transp_mode,
      (w ∈ transpTypeLabels x ↔ containsSeq (pyLower w) (pyLower x) = true)) := by
  refine ⟨by simp [traditionalDeliveryLabels], ?_, by decide, ?_, ?_⟩
  · intro t ht
    exact List.mem_map_of_mem _ ht
  · intro t h
    have h' : translateTok to_unify_deliveries t = "No deliveries".data := h
    rcases translateTok_cases to_unify_deliveries t with hmem | ⟨_, hid⟩
    · have hkey : ∀ p ∈ to_unify_deliveries,
          p.2 = "No deliveries".data → p.1 ∈ noActivityTokens := by decide
      exact hkey (t, translateTok to_unify_deliveries t) hmem h'
    · have ht : t = "No deliveries".data := hid.symm.trans h'
      rw [ht]
      decide
  · intro w hw
    constructor
    · intro hmem
      exact (List.mem_filter.1 hmem).2
    · intro hc
      exact List.mem_filter.2 ⟨hw, hc⟩

/-- Witness for C1: the comma-separated answer
`"No se realizan domicilios, Motocicleta"` resolves to exactly one label per
token (`No deliveries` and `Motorcycle`); the designated token `"Na"` is
among the no-activity tokens; and `camión` is extracted from a text that
contains it. -/
theorem C1_witness :
    traditionalDeliveryLabels "No se realizan domicilios, Motocicleta".data =
        ["No deliveries".data, "Motorcycle".data] ∧
      "Na".data ∈ noActivityTokens ∧
      "camión".data ∈ transpTypeLabels "entra en camión".data := by
  have h := C1_no_activity_is_exact_token_match
    "No se realizan domicilios, Motocicleta".data "entra en camión".data
  refine ⟨by decide, ?_, ?_⟩
  · exact h.2.2.2.1 "Na".data (by decide)
  · exact (h.2.2.2.2 "camión".data (by decide)).2 (by decide)

/-! ## Claim C10 — one-hot encoding of multi-label columns -/

/-- Column writes read back. -/
theorem getCol_setCol_same (df : Frame) (n : List Char) (vals : List Cell) :
    getCol (setCol df n vals) n = some vals := by
  induction df with
  | nil => simp [setCol, getCol]
  | cons p rest ih =>
    rw [setCol]
    split
    · simp [getCol]
    · rw [getCol]
      rename_i hne
      rw [if_neg hne]
      exact ih

/-- Column writes leave other columns alone. -/
theorem getCol_setCol_ne (df : Frame) {n m : List Char} (vals : List Cell)
    (h : m ≠ n) : getCol (setCol df n vals) m = getCol df m := by
  induction df with
  | nil =>
    simp only [setCol, getCol]
    rw [if_neg (Ne.symm h)]
  | cons p rest ih =>
    obtain ⟨a, w⟩ := p
    rw [setCol]
    by_cases ha : a = n
    · rw [if_pos ha, getCol, if_neg (Ne.symm h), getCol,
        if_neg (fun hh : a = m => h (hh ▸ ha))]
    · rw [if_neg ha, getCol, getCol]
      by_cases ham : a = m
      · rw [if_pos ham, if_pos ham]
      · rw [if_neg ham, if_neg ham]
        exact ih

/-- A generated indicator-column name is never the source column itself. -/
theorem genName_ne (p v : List Char) : genName p v ≠ p := by
  intro h
  have hl := congrArg List.length h
  simp [genName] at hl

/-- What the one-hot loop does to each column of the frame, given that the
source column holds `src`: the source column is untouched, columns whose
name is generated by no processed value are untouched, and a value whose
generated name is not shared with a different value ends up with exactly the
indicator column computed from `src`. -/
theorem oneHotFold_spec (column p : List Char) (src : List Cell)
    (hp : ∀ v, genName p v ≠ column) :
    ∀ (vs : List (List Char)) (acc : Frame), getCol acc column = some src →
      getCol (oneHotFold column p vs acc) column = some src ∧
      (∀ name, (∀ v ∈ vs, genName p v ≠ name) →
        getCol (oneHotFold column p vs acc) name = getCol acc name) ∧
      (∀ v ∈ vs, (∀ v' ∈ vs, genName p v' = genName p v → v' = v) →
        getCol (oneHotFold column p vs acc) (genName p v) =
          some (src.map (indicatorCell v))) := by
  intro vs
  induction vs with
  | nil =>
    intro acc hacc
    exact ⟨hacc, fun _ _ => rfl, fun v hv => absurd hv (List.not_mem_nil v)⟩
  | cons v vs ih =>
    intro acc hacc
    have hstep : oneHotFold column p (v :: vs) acc =
        oneHotFold column p vs
          (setCol acc (genName p v) (src.map (indicatorCell v))) := by
      simp only [oneHotFold, List.foldl_cons, hacc, Option.getD_some]
    have hacc' : getCol (setCol acc (genName p v) (src.map (indicatorCell v)))
        column = some src := by
      rw [getCol_setCol_ne _ _ (Ne.symm (hp v))]
      exact hacc
    obtain ⟨ih1, ih2, ih3⟩ := ih (setCol acc (genName p v)
      (src.map (indicatorCell v))) hacc'
    refine ⟨hstep ▸ ih1, ?_, ?_⟩
    · intro name hname
      rw [hstep, ih2 name (fun w hw => hname w (List.mem_cons_of_mem _ hw)),
        getCol_setCol_ne _ _ (Ne.symm (hname v (List.mem_cons_self v vs)))]
    · intro v0 hv0 huniq
      rcases List.mem_cons.1 hv0 with rfl | hv0'
      · by_cases hmem : ∃ v' ∈ vs, genName p v' = genName p v0
        · obtain ⟨v', hv', he⟩ := hmem
          have hv'0 : v' = v0 := huniq v' (List.mem_cons_of_mem _ hv') he
          subst hv'0
          rw [hstep]
          exact ih3 v' hv'
            (fun w hw hwe => huniq w (List.mem_cons_of_mem _ hw) hwe)
        · push_neg at hmem
          rw [hstep, ih2 (genName p v0) (fun w hw => hmem w hw),
            getCol_setCol_same]
      · rw [hstep]
        exact ih3 v0 hv0'
          (fun w hw hwe => huniq w (List.mem_cons_of_mem _ hw) hwe)

/-- Counterexample to claim C10: pre-existing columns are *not* always
unchanged — a generated indicator name can collide with an existing column,
which is then overwritten (here `m_a` loses its cell `"keep"`); and the
claim's own example is wrong: the substring test is case-sensitive, so the
canonical label `'Cart'` is *not* found inside the cell `'Cargo cart'` and
its indicator is `0`, not `1`. -/
theorem C10_counterexample :
    getCol (create_one_hot_encoding
        [("m".data, [Cell.cstr "xyz".data]),
         ("m_a".data, [Cell.cstr "keep".data])]
        "m".data [("k".data, "a".data)] none) "m_a".data =
      some [Cell.cnum 0] ∧
    getCol [("m".data, [Cell.cstr "xyz".data]),
        ("m_a".data, [Cell.cstr "keep".data])] "m_a".data =
      some [Cell.cstr "keep".data] ∧
    (some [Cell.cnum 0] : Option (List Cell)) ≠
      some [Cell.cstr "keep".data] ∧
    indicatorCell "Cart".data (Cell.cstr "Cargo cart".data) = Cell.cnum 0 := by
  exact ⟨by decide, by decide, by decide, by decide⟩

/-- Claim C10 as amended: when the encoded column is present (with default
prefix), the source column and every column whose name no mapping value
generates are unchanged; every mapping value whose generated name is not
shared with a different value gets an indicator column computed from the
source cells; every indicator entry is `1` or `0`, with `1` exactly when the
cell is non-missing and the canonical value occurs (case-sensitively) as a
substring of the cell's string form — hence a canonical label that is a
substring of another canonical label is set to `1` whenever the larger one
is. -/
theorem C10_one_hot_encoding (df : Frame) (column : List Char)
    (mapping : List (List Char × List Char)) (src : List Cell)
    (hsrc : getCol df column = some src) :
    getCol (create_one_hot_encoding df column mapping none) column =
        some src ∧
    (∀ name, (∀ v ∈ mapping.map Prod.snd, genName column v ≠ name) →
      getCol (create_one_hot_encoding df column mapping none) name =
        getCol df name) ∧
    (∀ v ∈ mapping.map Prod.snd,
      (∀ v' ∈ mapping.map Prod.snd,
        genName column v' = genName column v → v' = v) →
      getCol (create_one_hot_encoding df column mapping none)
          (genName column v) = some (src.map (indicatorCell v))) ∧
    (∀ v x, indicatorCell v x = Cell.cnum 1 ∨ indicatorCell v x = Cell.cnum 0) ∧
    (∀ v x, indicatorCell v x = Cell.cnum 1 ↔
      cellNotNa x = true ∧ containsSeq v (strOfCell x) = true) ∧
    (∀ v1 v2 x, containsSeq v1 v2 = true →
      indicatorCell v2 x = Cell.cnum 1 → indicatorCell v1 x = Cell.cnum 1) := by
  have hch : create_one_hot_encoding df column mapping none =
      oneHotFold column column (mapping.map Prod.snd) df := by
    rw [create_one_hot_encoding, hsrc]
    rfl
  obtain ⟨h1, h2, h3⟩ := oneHotFold_spec column column src
    (fun v => genName_ne column v) (mapping.map Prod.snd) df hsrc
  have hiff : ∀ v x, indicatorCell v x = Cell.cnum 1 ↔
      cellNotNa x = true ∧ containsSeq v (strOfCell x) = true := by
    intro v x
    unfold indicatorCell
    split
    · rename_i hc
      simp only [Bool.and_eq_true] at hc
      exact ⟨fun _ => hc, fun _ => rfl⟩
    · rename_i hc
      simp only [Bool.and_eq_true] at hc
      constructor
      · intro hbad
        injection hbad with hq
        exact absurd hq (by norm_num)
      · intro hcc
        exact absurd hcc hc
  refine ⟨hch ▸ h1, ?_, ?_, ?_, hiff, ?_⟩
  · intro name hname
    rw [hch]
    exact h2 name hname
  · intro v hv hu
    rw [hch]
    exact h3 v hv hu
  · intro v x
    unfold indicatorCell
    split
    · exact Or.inl rfl
    · exact Or.inr rfl
  · intro v1 v2 x h12 h2x
    rw [hiff] at h2x ⊢
    exact ⟨h2x.1, containsSeq_trans h12 h2x.2⟩

/-- Witness for C10: encoding the column `m` holding the cell
`"Cargo cart"` against the values `{"cart", "Cargo cart"}` produces the
indicator column `m_cart = [1]` — `cart` is a substring of the cell — and
the source column is untouched. -/
theorem C10_witness :
    getCol (create_one_hot_encoding [("m".data, [Cell.cstr "Cargo cart".data])]
        "m".data [("k1".data, "cart".data), ("k2".data, "Cargo cart".data)]
        none) (genName "m".data "cart".data) = some [Cell.cnum 1] ∧
      getCol (create_one_hot_encoding [("m".data, [Cell.cstr "Cargo cart".data])]
        "m".data [("k1".data, "cart".data), ("k2".data, "Cargo cart".data)]
        none) "m".data = some [Cell.cstr "Cargo cart".data] ∧
      indicatorCell "cart".data (Cell.cstr "Cargo cart".data) = Cell.cnum 1 := by
  have h := C10_one_hot_encoding [("m".data, [Cell.cstr "Cargo cart".data])]
    "m".data [("k1".data, "cart".data), ("k2".data, "Cargo cart".data)]
    [Cell.cstr "Cargo cart".data] (by decide)
  have hgen := h.2.2.1 "cart".data (by decide) (by decide)
  refine ⟨?_, h.1, ?_⟩
  · rw [hgen]
    exact congrArg some (by decide)
  · exact (h.2.2.2.2.1 "cart".data (Cell.cstr "Cargo cart".data)).2
      (by decide)

/-! ## Claim C9 — idempotence of text normalization

The proof goes through a canonical form: `_normalize_text` always outputs a
string of `goodChar`s with canonical whitespace and no leading or trailing
blank, and it is the identity on such strings. -/

/-- Every value stored in the lower-casing table under a key with no NFKD
decomposition (an ASCII letter) is a normal character.  (The accented
entries are excluded: their keys decompose, so they never reach the
lower-casing stage.) -/
theorem goodChar_lowerTable :
    ∀ p ∈ lowerTable, tblLookup nfkdTable p.1 = none → goodChar p.2 = true := by
  decide

/-- Every non-combining character of a table decomposition lower-cases to a
normal character. -/
theorem goodChar_nfkdTable :
    ∀ p ∈ nfkdTable, ∀ d ∈ p.2,
      isCombining d = false → goodChar (pyLowerChar d) = true := by
  decide

/-- Every character produced by decompose-strip-lower is normal. -/
theorem goodChar_stage1 {l : List Char} :
    ∀ c ∈ pyLower (stripAccents l), goodChar c = true := by
  intro c hc
  obtain ⟨d, hd, rfl⟩ := List.mem_map.1 hc
  rw [stripAccents, List.mem_filter] at hd
  obtain ⟨hdm, hdc⟩ := hd
  have hdc' : isCombining d = false := by simpa using hdc
  obtain ⟨e, he, hde⟩ := List.mem_flatMap.1 hdm
  unfold nfkdChar at hde
  cases htbl : tblLookup nfkdTable e with
  | some dec =>
    rw [htbl, Option.getD_some] at hde
    exact goodChar_nfkdTable (e, dec) (tblLookup_mem htbl) d hde hdc'
  | none =>
    rw [htbl, Option.getD_none] at hde
    have hdee : d = e := by simpa using hde
    subst hdee
    unfold pyLowerChar
    cases hlt : tblLookup lowerTable d with
    | some v =>
      exact goodChar_lowerTable (d, v) (tblLookup_mem hlt) htbl
    | none =>
      simp [goodChar, nfkdChar, pyLowerChar, htbl, hlt, hdc']

/-- Decompose-strip-lower is the identity on strings of normal
characters. -/
theorem stage1_eq_self {m : List Char} (h : ∀ c ∈ m, goodChar c = true) :
    pyLower (stripAccents m) = m := by
  induction m with
  | nil => rfl
  | cons c cs ih =>
    obtain ⟨h1, h2, h3⟩ :
        nfkdChar c = [c] ∧ isCombining c = false ∧ pyLowerChar c = c := by
      have hc := h c (List.mem_cons_self c cs)
      unfold goodChar at hc
      simp only [Bool.and_eq_true, beq_iff_eq, Bool.not_eq_true'] at hc
      exact ⟨hc.1.1, hc.1.2, hc.2⟩
    have hstep : stripAccents (c :: cs) = c :: stripAccents cs := by
      rw [stripAccents, stripAccents, nfkdL, nfkdL, List.flatMap_cons,
        List.filter_append, h1]
      simp [h2]
    rw [pyLower, hstep, List.map_cons, h3]
    exact congrArg (c :: ·) (ih (fun d hd => h d (List.mem_cons_of_mem _ hd)))

/-- `dropWhile` does nothing when the first character is not whitespace. -/
theorem dropWhile_eq_self_of_head {l : List Char}
    (h : headNotSpace l = true) : l.dropWhile pySpace = l := by
  cases l with
  | nil => rfl
  | cons c cs =>
    have hc : pySpace c = false := by simpa [headNotSpace] using h
    rw [List.dropWhile_cons, hc]
    simp

/-- Stripping does nothing when neither end is whitespace. -/
theorem trimL_eq_self {l : List Char} (h1 : headNotSpace l = true)
    (h2 : lastNotSpace l = true) : trimL l = l := by
  unfold trimL
  rw [dropWhile_eq_self_of_head h1, dropWhile_eq_self_of_head h2]
  exact List.reverse_reverse l

/-- Stripping only removes characters. -/
theorem mem_trimL {c : Char} {l : List Char} (h : c ∈ trimL l) : c ∈ l := by
  unfold trimL at h
  have h1 := (List.dropWhile_sublist _).subset (List.mem_reverse.1 h)
  exact (List.dropWhile_sublist _).subset (List.mem_reverse.1 h1)

/-- Whitespace collapsing only introduces blanks. -/
theorem mem_collapseWS {c : Char} :
    ∀ {l : List Char}, c ∈ collapseWS l → c = ' ' ∨ c ∈ l := by
  intro l h
  induction l using collapseWS.induct with
  | case1 => simp [collapseWS] at h
  | case2 d ds hd ih =>
    rw [collapseWS, if_pos hd] at h
    rcases List.mem_cons.1 h with h1 | h1
    · exact Or.inl h1
    · rcases ih h1 with h2 | h2
      · exact Or.inl h2
      · exact Or.inr (List.mem_cons_of_mem _ ((List.dropWhile_sublist _).subset h2))
  | case3 d ds hd ih =>
    rw [collapseWS, if_neg hd] at h
    rcases List.mem_cons.1 h with h1 | h1
    · exact Or.inr (h1 ▸ List.mem_cons_self _ _)
    · rcases ih h1 with h2 | h2
      · exact Or.inl h2
      · exact Or.inr (List.mem_cons_of_mem _ h2)

/-- Collapsing never empties a non-empty string. -/
theorem collapseWS_ne_nil {l : List Char} (h : l ≠ []) :
    collapseWS l ≠ [] := by
  cases l with
  | nil => exact absurd rfl h
  | cons a cs =>
    rw [collapseWS]
    split <;> simp

/-- The head of a collapsed string stays non-whitespace. -/
theorem headNotSpace_collapseWS {l : List Char} (h : headNotSpace l = true) :
    headNotSpace (collapseWS l) = true := by
  cases l with
  | nil =>
    rw [collapseWS]
    exact h
  | cons a cs =>
    have ha : pySpace a = false := by simpa [headNotSpace] using h
    rw [collapseWS, if_neg (by simp [ha])]
    simpa [headNotSpace] using ha

/-- After a leading non-whitespace character, the last character is
determined by the tail. -/
theorem lastNotSpace_cons_of_ne {a : Char} {cs : List Char} (h : cs ≠ []) :
    lastNotSpace (a :: cs) = lastNotSpace cs := by
  unfold lastNotSpace
  rw [List.reverse_cons]
  cases hcs : cs.reverse with
  | nil => exact absurd (by simpa using hcs) h
  | cons b bs => simp [headNotSpace]

/-- Dropping leading whitespace keeps the last character
non-whitespace. -/
theorem lastNotSpace_dropWhile {l : List Char} (h : lastNotSpace l = true) :
    lastNotSpace (l.dropWhile pySpace) = true := by
  induction l with
  | nil => exact h
  | cons a cs ih =>
    rw [List.dropWhile_cons]
    by_cases ha : pySpace a = true
    · rw [if_pos ha]
      apply ih
      cases hcs : cs with
      | nil =>
        subst hcs
        have h' : (!pySpace a) = true := h
        rw [ha] at h'
        cases h'
      | cons b bs =>
        rw [← lastNotSpace_cons_of_ne (a := a) (by simp [hcs])]
        exact hcs ▸ h
    · rw [if_neg ha]
      exact h

/-- A string whose last character is non-whitespace has a non-whitespace
character, so dropping leading whitespace cannot empty it. -/
theorem dropWhile_ne_nil_of_last {cs : List Char} (hne : cs ≠ [])
    (hl : lastNotSpace cs = true) : cs.dropWhile pySpace ≠ [] := by
  intro hnil
  rw [List.dropWhile_eq_nil_iff] at hnil
  cases hrv : cs.reverse with
  | nil => exact hne (by simpa using hrv)
  | cons b bs =>
    have hb : pySpace b = false := by
      have h' := hl
      unfold lastNotSpace at h'
      rw [hrv] at h'
      simpa [headNotSpace] using h'
    have hbm : b ∈ cs := List.mem_reverse.1 (hrv ▸ List.mem_cons_self b bs)
    rw [hnil b hbm] at hb
    cases hb

/-- The last character of a collapsed string stays non-whitespace. -/
theorem lastNotSpace_collapseWS {l : List Char} (h : lastNotSpace l = true) :
    lastNotSpace (collapseWS l) = true := by
  induction l using collapseWS.induct with
  | case1 =>
    rw [collapseWS]
    exact h
  | case2 a cs ha ih =>
    rw [collapseWS, if_pos ha]
    have hcs : cs ≠ [] := by
      intro hnil
      subst hnil
      have h' : (!pySpace a) = true := h
      rw [ha] at h'
      cases h'
    have hl : lastNotSpace cs = true := by
      rw [← lastNotSpace_cons_of_ne (a := a) hcs]
      exact h
    have hih := ih (lastNotSpace_dropWhile hl)
    rw [lastNotSpace_cons_of_ne
      (collapseWS_ne_nil (dropWhile_ne_nil_of_last hcs hl))]
    exact hih
  | case3 a cs ha ih =>
    by_cases hcs : cs = []
    · subst hcs
      rw [collapseWS, if_neg ha, collapseWS]
      exact h
    · have hl : lastNotSpace cs = true := by
        rw [← lastNotSpace_cons_of_ne (a := a) hcs]
        exact h
      rw [collapseWS, if_neg ha,
        lastNotSpace_cons_of_ne (collapseWS_ne_nil hcs)]
      exact ih hl

/-- The head of a whitespace-stripped string is non-whitespace. -/
theorem headNotSpace_dropWhile (m : List Char) :
    headNotSpace (m.dropWhile pySpace) = true := by
  induction m with
  | nil => rfl
  | cons a cs ih =>
    rw [List.dropWhile_cons]
    by_cases ha : pySpace a = true
    · rw [if_pos ha]
      exact ih
    · rw [if_neg ha]
      simpa [headNotSpace] using ha

/-- Collapsed strings have canonical whitespace. -/
theorem wsCanon_collapseWS (l : List Char) :
    wsCanon (collapseWS l) = true := by
  induction l using collapseWS.induct with
  | case1 => rw [collapseWS]; rfl
  | case2 a cs ha ih =>
    rw [collapseWS, if_pos ha]
    have hX : headNotSpace (collapseWS (cs.dropWhile pySpace)) = true :=
      headNotSpace_collapseWS (headNotSpace_dropWhile cs)
    simp [wsCanon, hX, ih]
  | case3 a cs ha ih =>
    rw [collapseWS, if_neg ha]
    have ha' : pySpace a = false := by simpa using ha
    simp [wsCanon, ha', ih]

/-- Collapsing is the identity on canonical whitespace. -/
theorem collapseWS_eq_self {l : List Char} (h : wsCanon l = true) :
    collapseWS l = l := by
  induction l using collapseWS.induct with
  | case1 => rw [collapseWS]
  | case2 a cs ha ih =>
    rw [collapseWS, if_pos ha]
    unfold wsCanon at h
    rw [ha] at h
    simp only [Bool.not_true, Bool.false_or, Bool.and_eq_true,
      decide_eq_true_eq] at h
    obtain ⟨⟨ha', hh⟩, hw⟩ := h
    have hdw : cs.dropWhile pySpace = cs := dropWhile_eq_self_of_head hh
    rw [hdw] at ih
    rw [hdw, ih hw, ha']
  | case3 a cs ha ih =>
    rw [collapseWS, if_neg ha]
    unfold wsCanon at h
    have ha' : pySpace a = false := by simpa using ha
    rw [ha'] at h
    simp only [Bool.not_false, Bool.true_or, Bool.true_and] at h
    exact congrArg (a :: ·) (ih h)

/-- The head of a stripped string is non-whitespace. -/
theorem headNotSpace_trimL (l : List Char) :
    headNotSpace (trimL l) = true := by
  unfold trimL
  obtain ⟨t, ht⟩ := List.dropWhile_suffix
    (l := (l.dropWhile pySpace).reverse) pySpace
  have hX : l.dropWhile pySpace =
      (List.dropWhile pySpace (l.dropWhile pySpace).reverse).reverse ++
        t.reverse := by
    have h' := congrArg List.reverse ht
    simpa [List.reverse_append] using h'.symm
  cases hz : (List.dropWhile pySpace (l.dropWhile pySpace).reverse).reverse with
  | nil => rfl
  | cons b bs =>
    have hhX : headNotSpace (l.dropWhile pySpace) = true :=
      headNotSpace_dropWhile l
    rw [hX, hz] at hhX
    simpa [headNotSpace] using hhX

/-- The last character of a stripped string is non-whitespace. -/
theorem lastNotSpace_trimL (l : List Char) :
    lastNotSpace (trimL l) = true := by
  unfold trimL lastNotSpace
  rw [List.reverse_reverse]
  exact headNotSpace_dropWhile _

/-- Every character of a normalized string is normal. -/
theorem all_goodChar_normalizeTextL (l : List Char) :
    (normalizeTextL l).all goodChar = true := by
  rw [List.all_eq_true]
  intro c hc
  unfold normalizeTextL at hc
  rcases mem_collapseWS hc with rfl | hc2
  · decide
  · exact goodChar_stage1 c (mem_trimL hc2)

/-- `_normalize_text` always outputs a string in canonical form. -/
theorem isNormalL_normalizeTextL (l : List Char) :
    isNormalL (normalizeTextL l) = true := by
  unfold isNormalL
  simp only [Bool.and_eq_true]
  refine ⟨⟨⟨all_goodChar_normalizeTextL l, wsCanon_collapseWS _⟩, ?_⟩, ?_⟩
  · exact headNotSpace_collapseWS (headNotSpace_trimL _)
  · exact lastNotSpace_collapseWS (lastNotSpace_trimL _)

/-- `_normalize_text` is the identity on canonical-form strings. -/
theorem normalizeTextL_eq_self {m : List Char} (h : isNormalL m = true) :
    normalizeTextL m = m := by
  unfold isNormalL at h
  simp only [Bool.and_eq_true] at h
  obtain ⟨⟨⟨h1, h2⟩, h3⟩, h4⟩ := h
  unfold normalizeTextL
  rw [stage1_eq_self (List.all_eq_true.1 h1), trimL_eq_self h3 h4,
    collapseWS_eq_self h2]

/-- Claim C9: text normalization is idempotent — applying `_normalize_text`
(NFKD-decompose, strip combining marks, lower-case, strip, collapse
whitespace) to an already-normalized string returns it unchanged:
`normalize(normalize(s)) = normalize(s)` for every string `s`. -/
theorem C9_normalize_text_idempotent (s : String) :
    normalize_text (normalize_text s) = normalize_text s := by
  unfold normalize_text
  exact congrArg String.mk
    (normalizeTextL_eq_self (isNormalL_normalizeTextL s.data))

end CBD
